import Mathlib

/-!
Shallow embedding of `src/sdk/core/azure-core/src/http/response.cpp`
(class `Azure::Core::Http::Response`).

The C++ class stores:
  * `m_statusCode    : HttpStatusCode` (an enum; modelled as `Nat`),
  * `m_reasonPhrase  : std::string`,
  * `m_headers       : std::map<std::string, std::string>`,
  * `m_bodyStream    : std::unique_ptr<BodyStream>` (modelled as an
    `Option Nat` holding the identity of the owned stream, `none` when no
    stream is attached).

`std::map` keeps keys sorted for iteration; none of the verified claims
depends on iteration order, so the model stores entries in insertion order
while mirroring exactly the key-uniqueness semantics of `std::map::insert`
(insertion with an already-present key is a no-op).
-/

namespace AzureCoreHttp

structure Response where
  m_statusCode : Nat
  m_reasonPhrase : String
  m_headers : List (String × String)
  m_bodyStream : Option Nat
deriving Repr, DecidableEq

/-- Whether the header map already holds an entry with key `k`
(`std::map::find`-style exact, case-sensitive key comparison). -/
def mapContainsKey (m : List (String × String)) (k : String) : Bool :=
  m.any fun p => p.1 == k

/-- `HttpStatusCode Response::GetStatusCode() const` -/
def Response.GetStatusCode (r : Response) : Nat := r.m_statusCode

/-- `std::string const& Response::GetReasonPhrase()` -/
def Response.GetReasonPhrase (r : Response) : String := r.m_reasonPhrase

/-- `std::map<std::string, std::string> const& Response::GetHeaders()` -/
def Response.GetHeaders (r : Response) : List (String × String) := r.m_headers

/-- `void Response::AddHeader(std::string const& name, std::string const& value)`:
`this->m_headers.insert(std::pair(name, value))`.  `std::map::insert` adds
the pair only when the key is not already present; otherwise the map is
left unchanged. -/
def Response.AddHeader (r : Response) (name value : String) : Response :=
  if mapContainsKey r.m_headers name then r
  else { r with m_headers := r.m_headers ++ [(name, value)] }

/-- The search `std::find(start, header.end(), ':')` together with the two
substrings around the found position: `none` when no `':'` occurs,
otherwise `some (chars before the first colon, chars after it)`. -/
def splitFirstColon : List Char → Option (List Char × List Char)
  | [] => none
  | c :: cs =>
    if c = ':' then some ([], cs)
    else
      match splitFirstColon cs with
      | none => none
      | some (a, b) => some (c :: a, b)

/-- The parsing phase of the single-argument
`void Response::AddHeader(std::string const& header)`:
  * `std::find(start, header.end(), ':')` — no colon means no result;
  * `headerName = std::string(start, end)` — everything before the colon;
  * the `while` loop skipping `' '` and `'\t'` after the colon;
  * `end = std::find(start, header.end(), '\r')` and
    `headerValue = std::string(start, end)` — the value stops at the
    first `'\r'`, or runs to the end of the line when there is none. -/
def parseHeaderLine (cs : List Char) : Option (String × String) :=
  match splitFirstColon cs with
  | none => none
  | some (nameChars, afterColon) =>
    let valueStart := afterColon.dropWhile fun c => c == ' ' || c == '\t'
    let valueChars := valueStart.takeWhile fun c => c != '\r'
    some (String.mk nameChars, String.mk valueChars)

/-- The single-argument overload
`void Response::AddHeader(std::string const& header)`: parse the raw line
and, if a colon was found, delegate to the two-argument `AddHeader`;
otherwise return without touching any state. -/
def Response.AddHeaderLine (r : Response) (header : String) : Response :=
  match parseHeaderLine header.data with
  | none => r
  | some (n, v) => r.AddHeader n v

/-- `void Response::SetBodyStream(std::unique_ptr<BodyStream> stream)`:
`this->m_bodyStream = std::move(stream)` — the owned-pointer slot is
overwritten, which destroys any previously owned stream. -/
def Response.SetBodyStream (r : Response) (stream : Nat) : Response :=
  { r with m_bodyStream := some stream }

/-- A mutating call on a constructed `Response`, for frame-effect claims
quantifying over arbitrary sequences of operations. -/
inductive ResponseOp where
  | addHeader (name value : String)
  | addHeaderLine (line : String)
  | setBodyStream (s : Nat)
deriving Repr

def applyOp (r : Response) : ResponseOp → Response
  | .addHeader n v => r.AddHeader n v
  | .addHeaderLine l => r.AddHeaderLine l
  | .setBodyStream s => r.SetBodyStream s

def applyOps (r : Response) (ops : List ResponseOp) : Response :=
  ops.foldl applyOp r

/-- A freshly constructed response with empty header map and no body
stream, used as the concrete starting point of the example claims. -/
def r0 : Response := ⟨200, "OK", [], none⟩

/-! ### Helper lemmas -/

/-- When the raw line holds no colon, the colon search fails. -/
theorem splitFirstColon_eq_none {cs : List Char} (h : ':' ∉ cs) :
    splitFirstColon cs = none := by
  induction cs with
  | nil => rfl
  | cons c cs ih =>
    have hc : c ≠ ':' := fun hc => h (hc ▸ List.mem_cons_self c cs)
    have hcs : ':' ∉ cs := fun hm => h (List.mem_cons_of_mem c hm)
    simp only [splitFirstColon, if_neg hc, ih hcs]

/-- A successful colon search decomposes the line as
`(chars before) ++ ':' :: (chars after)`, and the part before the colon
holds no colon itself. -/
theorem splitFirstColon_eq_some {cs a b : List Char}
    (h : splitFirstColon cs = some (a, b)) :
    cs = a ++ ':' :: b ∧ ':' ∉ a := by
  induction cs generalizing a b with
  | nil => simp [splitFirstColon] at h
  | cons c cs ih =>
    by_cases hc : c = ':'
    · subst hc
      simp only [splitFirstColon] at h
      simp at h
      obtain ⟨rfl, rfl⟩ := h
      exact ⟨rfl, List.not_mem_nil ':'⟩
    · simp only [splitFirstColon, if_neg hc] at h
      cases hr : splitFirstColon cs with
      | none => rw [hr] at h; simp at h
      | some p =>
        obtain ⟨a', b'⟩ := p
        rw [hr] at h
        simp only [Option.some.injEq, Prod.mk.injEq] at h
        obtain ⟨rfl, rfl⟩ := h
        obtain ⟨hdec, hnc⟩ := ih hr
        constructor
        · rw [hdec]; rfl
        · intro hm
          rcases List.mem_cons.mp hm with hm | hm
          · exact hc hm.symm
          · exact hnc hm

/-- After an insertion under key `n`, the map contains key `n`. -/
theorem mapContainsKey_after_insert (m : List (String × String)) (n v : String) :
    mapContainsKey (if mapContainsKey m n then m else m ++ [(n, v)]) n = true := by
  by_cases h : mapContainsKey m n
  · rw [if_pos h]; exact h
  · rw [if_neg h]
    simp [mapContainsKey, List.any_append]

/-- `AddHeader` touches only the header map. -/
theorem AddHeader_frame (r : Response) (n v : String) :
    (r.AddHeader n v).m_statusCode = r.m_statusCode ∧
    (r.AddHeader n v).m_reasonPhrase = r.m_reasonPhrase ∧
    (r.AddHeader n v).m_bodyStream = r.m_bodyStream := by
  unfold Response.AddHeader
  by_cases h : mapContainsKey r.m_headers n <;> simp [h]

/-- `AddHeaderLine` touches only the header map. -/
theorem AddHeaderLine_frame (r : Response) (line : String) :
    (r.AddHeaderLine line).m_statusCode = r.m_statusCode ∧
    (r.AddHeaderLine line).m_reasonPhrase = r.m_reasonPhrase ∧
    (r.AddHeaderLine line).m_bodyStream = r.m_bodyStream := by
  unfold Response.AddHeaderLine
  cases h : parseHeaderLine line.data with
  | none => exact ⟨rfl, rfl, rfl⟩
  | some p => exact AddHeader_frame r p.1 p.2

/-- Every mutating operation preserves the status code and the reason
phrase. -/
theorem applyOp_preserves_status_reason (r : Response) (op : ResponseOp) :
    (applyOp r op).m_statusCode = r.m_statusCode ∧
    (applyOp r op).m_reasonPhrase = r.m_reasonPhrase := by
  cases op with
  | addHeader n v => exact ⟨(AddHeader_frame r n v).1, (AddHeader_frame r n v).2.1⟩
  | addHeaderLine l => exact ⟨(AddHeaderLine_frame r l).1, (AddHeaderLine_frame r l).2.1⟩
  | setBodyStream s => exact ⟨rfl, rfl⟩

/-! ### Claims -/

/-- Claim C1, counterexample: after `AddHeader("Set-Cookie", "a=1")` and
`AddHeader("Set-Cookie", "b=2")` on a fresh response, the stored
collection holds a single entry; the second value is not retrievable, so
the mapping does not behave as a multi-entry store. -/
theorem C1_counterexample :
    (((r0.AddHeader "Set-Cookie" "a=1").AddHeader "Set-Cookie" "b=2").GetHeaders.length = 1 ∧
      ("Set-Cookie", "b=2") ∉
        ((r0.AddHeader "Set-Cookie" "a=1").AddHeader "Set-Cookie" "b=2").GetHeaders) ∧
    ((r0.AddHeaderLine "Set-Cookie: a=1").AddHeaderLine "Set-Cookie: b=2").GetHeaders.length
      = 1 := by
  decide

/-- A second insertion under the same key is a complete no-op on the
response (`std::map::insert` keeps the first entry). -/
theorem AddHeader_same_name_noop (r : Response) (n v1 v2 : String) :
    (r.AddHeader n v1).AddHeader n v2 = r.AddHeader n v1 := by
  have hk : mapContainsKey (r.AddHeader n v1).m_headers n = true := by
    unfold Response.AddHeader
    rw [apply_ite Response.m_headers]
    exact mapContainsKey_after_insert r.m_headers n v1
  generalize hs : r.AddHeader n v1 = s at hk ⊢
  unfold Response.AddHeader
  rw [if_pos hk]

/-- Claim C1 (amended): after `AddHeader(name, v1)`, a second
`AddHeader(name, v2)` with the same name (identical case) is a complete
no-op: only the first entry is retained (`std::map::insert` does not add
a pair under an existing key), and a second `AddHeaderLine` whose parsed
name is the same is likewise a no-op. -/
theorem C1_first_insertion_wins (r : Response) (n v1 v2 line1 line2 w1 w2 : String)
    (h1 : parseHeaderLine line1.data = some (n, w1))
    (h2 : parseHeaderLine line2.data = some (n, w2)) :
    (r.AddHeader n v1).AddHeader n v2 = r.AddHeader n v1 ∧
    (r.AddHeaderLine line1).AddHeaderLine line2 = r.AddHeaderLine line1 := by
  refine ⟨AddHeader_same_name_noop r n v1 v2, ?_⟩
  simp only [Response.AddHeaderLine, h1, h2]
  exact AddHeader_same_name_noop r n w1 w2

/-- Claim C1 (amended), witness at concrete repeated `Set-Cookie`
insertions. -/
theorem C1_first_insertion_wins_witness :
    (r0.AddHeader "Set-Cookie" "a=1").AddHeader "Set-Cookie" "b=2"
      = r0.AddHeader "Set-Cookie" "a=1" ∧
    (r0.AddHeaderLine "Set-Cookie: a=1").AddHeaderLine "Set-Cookie: b=2"
      = r0.AddHeaderLine "Set-Cookie: a=1" :=
  C1_first_insertion_wins r0 "Set-Cookie" "a=1" "b=2"
    "Set-Cookie: a=1" "Set-Cookie: b=2" "a=1" "b=2" (by decide) (by decide)

/-- Claim C2: a line holding no `':'` character leaves the response — in
particular its header collection — exactly unchanged, with no partial
entry created. -/
theorem C2_no_colon_is_noop (r : Response) (line : String) (h : ':' ∉ line.data) :
    r.AddHeaderLine line = r := by
  unfold Response.AddHeaderLine parseHeaderLine
  rw [splitFirstColon_eq_none h]

/-- Claim C2, witness at the empty line and at a malformed line. -/
theorem C2_witness :
    r0.AddHeaderLine "" = r0 ∧ r0.AddHeaderLine "malformed header\r\n" = r0 :=
  ⟨C2_no_colon_is_noop r0 "" (by decide),
   C2_no_colon_is_noop r0 "malformed header\r\n" (by decide)⟩

/-- Claim C3: parsing `"Content-Length: 42\r"` stores exactly the entry
`("Content-Length", "42")`: the space after the colon is skipped and the
value stops just before the carriage-return. -/
theorem C3_content_length_line :
    (r0.AddHeaderLine "Content-Length: 42\r").GetHeaders = [("Content-Length", "42")] := by
  decide

/-- Claim C4: parsing `"X-Empty:"` stores the entry `("X-Empty", "")`
with the empty string as value. -/
theorem C4_empty_value_line :
    (r0.AddHeaderLine "X-Empty:").GetHeaders = [("X-Empty", "")] := by
  decide

/-- Claim C5: header names keep their original case, so adding both
`"content-length"` and `"Content-Length"` — via `AddHeader` or via line
parsing — yields two distinct entries in the stored collection. -/
theorem C5_case_sensitive_names :
    (((r0.AddHeader "content-length" "8").AddHeader "Content-Length" "9").GetHeaders.length = 2 ∧
      ("content-length", "8") ∈
        ((r0.AddHeader "content-length" "8").AddHeader "Content-Length" "9").GetHeaders ∧
      ("Content-Length", "9") ∈
        ((r0.AddHeader "content-length" "8").AddHeader "Content-Length" "9").GetHeaders) ∧
    (((r0.AddHeaderLine "content-length: 8").AddHeaderLine "Content-Length: 9").GetHeaders.length = 2 ∧
      ("content-length", "8") ∈
        ((r0.AddHeaderLine "content-length: 8").AddHeaderLine "Content-Length: 9").GetHeaders ∧
      ("Content-Length", "9") ∈
        ((r0.AddHeaderLine "content-length: 8").AddHeaderLine "Content-Length: 9").GetHeaders) := by
  decide

/-- Claim C6: no operation other than construction writes the status
code or the reason phrase — after any sequence of `AddHeader`,
`AddHeaderLine` and `SetBodyStream` calls, `GetStatusCode()` and
`GetReasonPhrase()` still return the values the response was built
with. -/
theorem C6_status_reason_fixed_at_construction (r : Response) (ops : List ResponseOp) :
    (applyOps r ops).GetStatusCode = r.GetStatusCode ∧
    (applyOps r ops).GetReasonPhrase = r.GetReasonPhrase := by
  induction ops generalizing r with
  | nil => exact ⟨rfl, rfl⟩
  | cons op ops ih =>
    have h := applyOp_preserves_status_reason r op
    have h2 := ih (applyOp r op)
    exact ⟨h2.1.trans h.1, h2.2.trans h.2⟩

/-- Claim C7: `SetBodyStream(stream)` overwrites the owned body-stream
slot with the given stream — whatever stream was attached before is no
longer held — and leaves the status code, reason phrase and header
collection unchanged. -/
theorem C7_set_body_stream_replaces (r : Response) (s : Nat) :
    (r.SetBodyStream s).m_bodyStream = some s ∧
    (r.SetBodyStream s).GetStatusCode = r.GetStatusCode ∧
    (r.SetBodyStream s).GetReasonPhrase = r.GetReasonPhrase ∧
    (r.SetBodyStream s).GetHeaders = r.GetHeaders :=
  ⟨rfl, rfl, rfl, rfl⟩

/-- The first element surviving `dropWhile` falsifies the predicate. -/
theorem dropWhile_head_false {p : Char → Bool} {l t : List Char} {c : Char}
    (h : l.dropWhile p = c :: t) : p c = false := by
  induction l with
  | nil => simp [List.dropWhile] at h
  | cons x xs ih =>
    rw [List.dropWhile_cons] at h
    by_cases hx : p x
    · rw [if_pos hx] at h; exact ih h
    · rw [if_neg hx] at h
      obtain ⟨rfl, rfl⟩ := List.cons.injEq .. ▸ h
      simpa using hx

/-- Claim C9: when the map already holds an entry with name `n` (exact
case), a later `AddHeader(n, v2)` leaves the whole response unchanged:
the existing value is kept and `v2` is silently discarded. -/
theorem C9_existing_key_insert_noop (r : Response) (n v v2 : String)
    (h : (n, v) ∈ r.m_headers) : r.AddHeader n v2 = r := by
  have hk : mapContainsKey r.m_headers n = true :=
    List.any_eq_true.mpr ⟨(n, v), h, by simp⟩
  unfold Response.AddHeader
  rw [if_pos hk]

/-- Claim C9, witness: inserting `"xyz"` under an already-present key
`"ETag"` (stored value `"abc"`, and `"xyz" ≠ "abc"`) changes nothing. -/
theorem C9_witness :
    (Response.mk 200 "OK" [("ETag", "abc")] none).AddHeader "ETag" "xyz"
      = Response.mk 200 "OK" [("ETag", "abc")] none :=
  C9_existing_key_insert_noop (Response.mk 200 "OK" [("ETag", "abc")] none)
    "ETag" "abc" "xyz" (by decide)

/-- Claim C8: the stored value is a contiguous piece of the line that
holds no carriage-return; the piece of the line that follows it is
either empty (value runs to the end of the line — nothing after an
explicit `'\r'` cut is stripped, a trailing `'\n'` included) or begins
with the first `'\r'` after the value start, everything from that `'\r'`
on being dropped; in particular, when the whole line holds no `'\r'`,
nothing after the value is dropped at all. -/
theorem C8_value_stops_at_cr (line nm v : String)
    (h : parseHeaderLine line.data = some (nm, v)) :
    '\r' ∉ v.data ∧
    ∃ pre post, line.data = pre ++ v.data ++ post ∧
      (post = [] ∨ post.head? = some '\r') ∧
      ('\r' ∉ line.data → post = []) := by
  unfold parseHeaderLine at h
  cases hc : splitFirstColon line.data with
  | none => rw [hc] at h; simp at h
  | some p =>
    obtain ⟨a, rest⟩ := p
    rw [hc] at h
    simp only [Option.some.injEq, Prod.mk.injEq] at h
    obtain ⟨rfl, rfl⟩ := h
    obtain ⟨hdec, -⟩ := splitFirstColon_eq_some hc
    have hmem :
        '\r' ∉ (rest.dropWhile fun c => c == ' ' || c == '\t').takeWhile (fun c => c != '\r') := by
      intro hm
      have := List.mem_takeWhile_imp hm
      simp at this
    have hsplit :
        ((rest.dropWhile fun c => c == ' ' || c == '\t').takeWhile fun c => c != '\r') ++
            ((rest.dropWhile fun c => c == ' ' || c == '\t').dropWhile fun c => c != '\r')
          = rest.dropWhile fun c => c == ' ' || c == '\t' :=
      List.takeWhile_append_dropWhile _ _
    have hfull :
        line.data = (a ++ ':' :: (rest.takeWhile fun c => c == ' ' || c == '\t')) ++
          ((rest.dropWhile fun c => c == ' ' || c == '\t').takeWhile fun c => c != '\r') ++
          ((rest.dropWhile fun c => c == ' ' || c == '\t').dropWhile fun c => c != '\r') := by
      calc line.data = a ++ ':' :: rest := hdec
        _ = a ++ ':' :: ((rest.takeWhile fun c => c == ' ' || c == '\t') ++
              ((rest.dropWhile fun c => c == ' ' || c == '\t').takeWhile fun c => c != '\r') ++
              ((rest.dropWhile fun c => c == ' ' || c == '\t').dropWhile fun c => c != '\r')) := by
            rw [List.append_assoc, hsplit, List.takeWhile_append_dropWhile]
        _ = _ := by simp [List.append_assoc]
    have hhead :
        ((rest.dropWhile fun c => c == ' ' || c == '\t').dropWhile fun c => c != '\r') = [] ∨
        ((rest.dropWhile fun c => c == ' ' || c == '\t').dropWhile fun c => c != '\r').head?
          = some '\r' := by
      cases hpc : (rest.dropWhile fun c => c == ' ' || c == '\t').dropWhile fun c => c != '\r' with
      | nil => exact Or.inl rfl
      | cons c t =>
        have hf := dropWhile_head_false hpc
        have hcr : c = '\r' := by simpa using hf
        exact Or.inr (by rw [hcr]; rfl)
    refine ⟨hmem, _, _, hfull, hhead, ?_⟩
    intro hnr
    cases hpc : (rest.dropWhile fun c => c == ' ' || c == '\t').dropWhile fun c => c != '\r' with
    | nil => rfl
    | cons c t =>
      exfalso
      have hcr : c = '\r' := by simpa using dropWhile_head_false hpc
      apply hnr
      rw [hfull, hpc, hcr]
      simp

/-- Claim C8, witness at a line with an explicit carriage-return cut. -/
theorem C8_witness :
    '\r' ∉ ("no cut").data ∧
    ∃ pre post, ("X-Note: no cut\rdropped\n").data = pre ++ ("no cut").data ++ post ∧
      (post = [] ∨ post.head? = some '\r') ∧
      ('\r' ∉ ("X-Note: no cut\rdropped\n").data → post = []) :=
  C8_value_stops_at_cr "X-Note: no cut\rdropped\n" "X-Note" "no cut" (by decide)

/-- Claim C10: the stored header name is the verbatim, possibly empty,
untrimmed prefix of the line strictly before its first `':'`. -/
theorem C10_name_verbatim (line nm v : String)
    (h : parseHeaderLine line.data = some (nm, v)) :
    ':' ∉ nm.data ∧ ∃ rest, line.data = nm.data ++ ':' :: rest := by
  unfold parseHeaderLine at h
  cases hc : splitFirstColon line.data with
  | none => rw [hc] at h; simp at h
  | some p =>
    obtain ⟨a, rest⟩ := p
    rw [hc] at h
    simp only [Option.some.injEq, Prod.mk.injEq] at h
    obtain ⟨rfl, rfl⟩ := h
    obtain ⟨hdec, hnc⟩ := splitFirstColon_eq_some hc
    exact ⟨hnc, rest, hdec⟩

/-- Claim C10, witness: in `"Name : v"` the name keeps its trailing
space (`"Name "`), untrimmed. -/
theorem C10_witness :
    ':' ∉ ("Name ").data ∧ ∃ rest, ("Name : v").data = ("Name ").data ++ ':' :: rest :=
  C10_name_verbatim "Name : v" "Name " "v" (by decide)

end AzureCoreHttp
